import Mathlib

/-!
Verification of the orchestration core of the dots application: the
persistent query store (cacheService), the URL snapshot codec
(navigationUtils), the context builder (contextBuilder), the response
parser and retry loop (aiService), the request cache / dedup layer
(aiService.executeWithCache) and the cancellable query orchestrator
(searchActions + SearchController).

Strings are modelled as lists of characters; JavaScript string or
undefined values are modelled as Option over such lists, with the
JavaScript truthiness convention (undefined and the empty string are
falsy).
-/

set_option maxRecDepth 4000

/-- Character-list model of JavaScript strings. -/
abbrev Str := List Char

/-- Conversion from a Lean string literal to the character-list model. -/
def str (s : String) : Str := s.toList

/-- Truthiness of a string-or-undefined value: undefined and the empty
string are falsy, every other string is truthy. -/
def strTruthy : Option Str → Bool
  | none => false
  | some s => !s.isEmpty

/-- Whitespace test used by trim. -/
def isWS (c : Char) : Bool := c.isWhitespace

/-- Model of the JavaScript trimStart operation. -/
def trimLeft (l : Str) : Str := l.dropWhile isWS

/-- Model of the JavaScript trimEnd operation. -/
def trimRight (l : Str) : Str := (l.reverse.dropWhile isWS).reverse

/-- Model of the JavaScript trim operation: whitespace is removed from
both ends. -/
def trim (l : Str) : Str := trimRight (trimLeft l)

/-- Model of the JavaScript toLowerCase operation (ASCII range). -/
def lowerStr (l : Str) : Str := l.map Char.toLower

/-- Composition query.toLowerCase().trim() used by the store lookup. -/
def lowerTrim (l : Str) : Str := trim (lowerStr l)

/-- Segment model from src/types: a titled unit of content with a parent
link; level records the hierarchy depth. -/
structure TextSegment where
  id : Str
  title : Str
  content : Str
  level : Nat
  parentId : Option Str
deriving Repr, DecidableEq

/-- Query record stored by cacheService (QueryHistoryItem): parentId and
sourceSegmentId are absent (undefined) for root searches. -/
structure QueryHistoryItem where
  id : Str
  query : Str
  segments : List TextSegment
  timestamp : Nat
  parentId : Option Str
  sourceSegmentId : Option Str
deriving Repr, DecidableEq

/-- Matching predicate of CacheService.findExistingQuery: the query text
is compared lowercased and trimmed; when both a sourceSegmentId and a
parentId argument are supplied (truthy) the record must carry exactly
those two values, otherwise the record must carry neither. -/
def findExistingPred (query : Str) (sourceSegmentId parentId : Option Str)
    (item : QueryHistoryItem) : Bool :=
  let queryMatch := lowerTrim item.query == lowerTrim query
  if strTruthy sourceSegmentId && strTruthy parentId then
    queryMatch && (item.sourceSegmentId == sourceSegmentId)
      && (item.parentId == parentId)
  else
    queryMatch && !(strTruthy item.sourceSegmentId) && !(strTruthy item.parentId)

/-- Model of CacheService.findExistingQuery: first record of the history
list (most recent first) satisfying the matching predicate. -/
def findExistingQuery (query : Str) (sourceSegmentId parentId : Option Str)
    (history : List QueryHistoryItem) : Option QueryHistoryItem :=
  history.find? (findExistingPred query sourceSegmentId parentId)

/-- Record cap of the store (CacheService.MAX_QUERY_HISTORY). -/
def MAX_QUERY_HISTORY : Nat := 100

/-- Model of CacheService.saveQueryResult: a fresh record is pushed at
the head of the history and the tail is trimmed to the cap; the fresh
record id (produced by uuidv4 in the source) and the timestamp are
passed in explicitly. Returns the new id and the updated history. -/
def saveQueryResult (query : Str) (segments : List TextSegment)
    (parentId sourceSegmentId : Option Str) (id : Str) (timestamp : Nat)
    (history : List QueryHistoryItem) : Str × List QueryHistoryItem :=
  let item : QueryHistoryItem :=
    ⟨id, query, segments, timestamp, parentId, sourceSegmentId⟩
  (id, (item :: history).take MAX_QUERY_HISTORY)

/-- Model of CacheService.getQueryById: first record with the given id. -/
def getQueryById (id : Str) (history : List QueryHistoryItem) :
    Option QueryHistoryItem :=
  history.find? (fun item => item.id == id)

/-- Hex-or-hyphen character class of the /q/ URL pattern. -/
def isUuidChar (c : Char) : Bool :=
  (('a' ≤ c) && (c ≤ 'f')) || (('0' ≤ c) && (c ≤ '9')) || (c == '-')

/-- Canonical record-id shape accepted by the codec: exactly 36
hex-or-hyphen characters, as produced by uuidv4. -/
def uuidShape (s : Str) : Bool := (s.length == 36) && s.all isUuidChar

/-- Model of buildNavigationUrl: the canonical path of a record id, or
the root path when no id is given. -/
def buildNavigationUrl (queryId : Option Str) : Str :=
  match queryId with
  | some id => str "/q/" ++ id
  | none => str "/"

/-- Model of parseUUIDUrl: a path is decoded exactly when it matches the
anchored pattern /q/ followed by 36 hex-or-hyphen characters. -/
def parseUUIDUrl (pathname : Str) : Option Str :=
  if (str "/q/").isPrefixOf pathname then
    if ((pathname.drop 3).length == 36) && (pathname.drop 3).all isUuidChar then
      some (pathname.drop 3)
    else none
  else none

theorem findExistingPred_some_queryMatch {q : Str} {src par : Option Str}
    {h : List QueryHistoryItem} {item : QueryHistoryItem}
    (hf : findExistingQuery q src par h = some item) :
    lowerTrim item.query = lowerTrim q := by
  have hp := List.find?_some hf
  unfold findExistingPred at hp
  split at hp <;> simp_all

theorem findExistingQuery_both_supplied {q : Str} {src par : Option Str}
    {h : List QueryHistoryItem} {item : QueryHistoryItem}
    (hsrc : strTruthy src = true) (hpar : strTruthy par = true)
    (hf : findExistingQuery q src par h = some item) :
    item.sourceSegmentId = src ∧ item.parentId = par := by
  have hp := List.find?_some hf
  unfold findExistingPred at hp
  rw [hsrc, hpar] at hp
  simp_all

theorem findExistingQuery_not_both {q : Str} {src par : Option Str}
    {h : List QueryHistoryItem} {item : QueryHistoryItem}
    (hnb : ¬(strTruthy src = true ∧ strTruthy par = true))
    (hf : findExistingQuery q src par h = some item) :
    strTruthy item.sourceSegmentId = false ∧ strTruthy item.parentId = false := by
  have hp := List.find?_some hf
  unfold findExistingPred at hp
  split at hp
  · next hcond =>
      exact absurd (by simpa [Bool.and_eq_true] using hcond) hnb
  · simp_all

theorem findExistingQuery_balanced {q : Str} {src par : Option Str}
    {h : List QueryHistoryItem} {item : QueryHistoryItem}
    (hf : findExistingQuery q src par h = some item) :
    strTruthy item.sourceSegmentId = strTruthy item.parentId := by
  have hp := List.find?_some hf
  unfold findExistingPred at hp
  split at hp
  · next hcond =>
      have hc : strTruthy src = true ∧ strTruthy par = true := by
        simpa [Bool.and_eq_true] using hcond
      have h1 : item.sourceSegmentId = src ∧ item.parentId = par := by
        simp_all
      rw [h1.1, h1.2, hc.1, hc.2]
  · simp_all

theorem findExistingQuery_first {q : Str} {src par : Option Str}
    (h₁ : List QueryHistoryItem) {item : QueryHistoryItem}
    (h₂ : List QueryHistoryItem)
    (hnone : ∀ x ∈ h₁, findExistingPred q src par x = false)
    (hit : findExistingPred q src par item = true) :
    findExistingQuery q src par (h₁ ++ item :: h₂) = some item := by
  induction h₁ with
  | nil => simp [findExistingQuery, List.find?, hit]
  | cons a t ih =>
      have ha := hnone a (by simp)
      have ht : ∀ x ∈ t, findExistingPred q src par x = false := by
        intro x hx; exact hnone x (by simp [hx])
      simpa [findExistingQuery, List.find?, ha] using ih ht

theorem saveQueryResult_head (q : Str) (segs : List TextSegment)
    (par src : Option Str) (id : Str) (ts : Nat)
    (h : List QueryHistoryItem) :
    ((saveQueryResult q segs par src id ts h).2).head? =
      some ⟨id, q, segs, ts, par, src⟩ := by
  simp [saveQueryResult, MAX_QUERY_HISTORY, List.take]

/-- C5: the findExisting lookup of the store matches on case-insensitive
whitespace-trimmed query text; when both sourceSegmentId and parentId
are supplied it additionally requires those exact values, when not both
are supplied it only matches records carrying neither; a record with
only one of the two fields set is never returned; the result is the
first (hence, with the most-recent-first order produced by save, the
most recent) matching record. -/
theorem c5_findExisting_spec :
    (∀ (q : Str) (src par : Option Str) (h : List QueryHistoryItem)
        (item : QueryHistoryItem),
      findExistingQuery q src par h = some item →
      lowerTrim item.query = lowerTrim q) ∧
    (∀ (q : Str) (src par : Option Str) (h : List QueryHistoryItem)
        (item : QueryHistoryItem),
      strTruthy src = true → strTruthy par = true →
      findExistingQuery q src par h = some item →
      item.sourceSegmentId = src ∧ item.parentId = par) ∧
    (∀ (q : Str) (src par : Option Str) (h : List QueryHistoryItem)
        (item : QueryHistoryItem),
      ¬(strTruthy src = true ∧ strTruthy par = true) →
      findExistingQuery q src par h = some item →
      strTruthy item.sourceSegmentId = false ∧
        strTruthy item.parentId = false) ∧
    (∀ (q : Str) (src par : Option Str) (h : List QueryHistoryItem)
        (item : QueryHistoryItem),
      findExistingQuery q src par h = some item →
      strTruthy item.sourceSegmentId = strTruthy item.parentId) ∧
    (∀ (q : Str) (src par : Option Str) (h₁ : List QueryHistoryItem)
        (item : QueryHistoryItem) (h₂ : List QueryHistoryItem),
      (∀ x ∈ h₁, findExistingPred q src par x = false) →
      findExistingPred q src par item = true →
      findExistingQuery q src par (h₁ ++ item :: h₂) = some item) ∧
    (∀ (q : Str) (segs : List TextSegment) (par src : Option Str)
        (id : Str) (ts : Nat) (h : List QueryHistoryItem),
      ((saveQueryResult q segs par src id ts h).2).head? =
        some ⟨id, q, segs, ts, par, src⟩) := by
  refine ⟨?_, ?_, ?_, ?_, ?_, ?_⟩
  · intro q src par h item hf; exact findExistingPred_some_queryMatch hf
  · intro q src par h item hs hp hf
    exact findExistingQuery_both_supplied hs hp hf
  · intro q src par h item hnb hf; exact findExistingQuery_not_both hnb hf
  · intro q src par h item hf; exact findExistingQuery_balanced hf
  · intro q src par h₁ item h₂ hn hi; exact findExistingQuery_first h₁ h₂ hn hi
  · intro q segs par src id ts h; exact saveQueryResult_head q segs par src id ts h

/-- Witness for C5 at concrete inputs: an expansion lookup with both key
parts supplied (case and surrounding whitespace differing in the query
text) returns the stored record, which carries exactly the supplied
sourceSegmentId and parentId. -/
theorem c5_findExisting_spec_witness :
    findExistingQuery (str " key ") (some (str "s1")) (some (str "p1"))
        [⟨str "r1", str "Key", [], 5, some (str "p1"), some (str "s1")⟩] =
      some ⟨str "r1", str "Key", [], 5, some (str "p1"), some (str "s1")⟩ ∧
    ((⟨str "r1", str "Key", [], 5, some (str "p1"), some (str "s1")⟩ :
        QueryHistoryItem).sourceSegmentId = some (str "s1") ∧
      (⟨str "r1", str "Key", [], 5, some (str "p1"), some (str "s1")⟩ :
        QueryHistoryItem).parentId = some (str "p1")) :=
  ⟨by decide,
    c5_findExisting_spec.2.1 (str " key ") (some (str "s1")) (some (str "p1"))
      [⟨str "r1", str "Key", [], 5, some (str "p1"), some (str "s1")⟩]
      ⟨str "r1", str "Key", [], 5, some (str "p1"), some (str "s1")⟩
      (by decide) (by decide) (by decide)⟩

theorem parseUUIDUrl_encode {id : Str} (hs : uuidShape id = true) :
    parseUUIDUrl (buildNavigationUrl (some id)) = some id := by
  have hlen : id.length = 36 := by
    have := hs
    unfold uuidShape at this
    simp [Bool.and_eq_true] at this
    exact this.1
  have hall : id.all isUuidChar = true := by
    have := hs
    unfold uuidShape at this
    simp [Bool.and_eq_true] at this
    simpa using this.2
  have hpre : (str "/q/").isPrefixOf (str "/q/" ++ id) = true := by
    rw [List.isPrefixOf_iff_prefix]
    exact List.prefix_append _ _
  unfold parseUUIDUrl buildNavigationUrl
  rw [hpre]
  simp only [if_true]
  have hdrop : (str "/q/" ++ id).drop 3 = id := by
    have h3 : (str "/q/").length = 3 := by decide
    rw [← h3, List.drop_left]
  rw [hdrop, hlen]
  simp [hall]

theorem parseUUIDUrl_canonical {p id : Str}
    (h : parseUUIDUrl p = some id) :
    p = str "/q/" ++ id ∧ uuidShape id = true := by
  unfold parseUUIDUrl at h
  split at h
  · next hpre =>
      rw [List.isPrefixOf_iff_prefix] at hpre
      obtain ⟨t, ht⟩ := hpre
      split at h
      · next hcond =>
          have hid : p.drop 3 = id := by simpa using h
          have hdrop : p.drop 3 = t := by
            rw [← ht]
            have h3 : (str "/q/").length = 3 := by decide
            rw [← h3, List.drop_left]
          constructor
          · rw [← ht, ← hid, hdrop]
          · rw [← hid]
            unfold uuidShape
            simp [Bool.and_eq_true] at hcond ⊢
            exact ⟨hcond.1, fun c hc => hcond.2 c hc⟩
      · exact absurd h (by simp)
  · exact absurd h (by simp)

theorem saveQueryResult_getById (q : Str) (segs : List TextSegment)
    (par src : Option Str) (id : Str) (ts : Nat)
    (h : List QueryHistoryItem) :
    (saveQueryResult q segs par src id ts h).1 = id ∧
    ∃ r, getQueryById id (saveQueryResult q segs par src id ts h).2 = some r ∧
      r.id = id := by
  refine ⟨rfl, ⟨id, q, segs, ts, par, src⟩, ?_, rfl⟩
  simp [saveQueryResult, getQueryById, MAX_QUERY_HISTORY, List.take, List.find?]

/-- C6: encode produces the canonical path /q/ followed by the id, and
for every id of the hex-and-hyphen 36-character shape produced by the
uuid generator of the save operation, decode inverts encode; decode
accepts only the canonical shape (every decoded path literally is /q/
followed by 36 hex-or-hyphen characters); and looking a freshly saved
id up by getById returns a record with exactly that id. -/
theorem c6_roundTrip :
    (∀ id : Str, uuidShape id = true →
      parseUUIDUrl (buildNavigationUrl (some id)) = some id) ∧
    (∀ p id : Str, parseUUIDUrl p = some id →
      p = str "/q/" ++ id ∧ uuidShape id = true) ∧
    (∀ (q : Str) (segs : List TextSegment) (par src : Option Str)
        (id : Str) (ts : Nat) (h : List QueryHistoryItem),
      (saveQueryResult q segs par src id ts h).1 = id ∧
      ∃ r, getQueryById id (saveQueryResult q segs par src id ts h).2 = some r ∧
        r.id = id) := by
  refine ⟨?_, ?_, ?_⟩
  · intro id hs; exact parseUUIDUrl_encode hs
  · intro p id h; exact parseUUIDUrl_canonical h
  · intro q segs par src id ts h; exact saveQueryResult_getById q segs par src id ts h

/-- Witness for C6 at a concrete uuid-shaped id: the decode of the
encode of the id produced by a concrete save is that id again. -/
theorem c6_roundTrip_witness :
    (saveQueryResult (str "photosynthesis") [] none none
        (str "123e4567-e89b-42d3-a456-426614174000") 7 []).1 =
      str "123e4567-e89b-42d3-a456-426614174000" ∧
    parseUUIDUrl (buildNavigationUrl
        (some (str "123e4567-e89b-42d3-a456-426614174000"))) =
      some (str "123e4567-e89b-42d3-a456-426614174000") :=
  ⟨(c6_roundTrip.2.2 (str "photosynthesis") [] none none
      (str "123e4567-e89b-42d3-a456-426614174000") 7 []).1,
    c6_roundTrip.1 (str "123e4567-e89b-42d3-a456-426614174000") (by decide)⟩

/-- Ancestor depth limit of the context builder (CONTEXT_LEVEL_LIMIT). -/
def CONTEXT_LEVEL_LIMIT : Nat := 4

/-- Traversal loop of getParentSegments: follow parentId links through
the supplied segment set while the link is truthy, the parent resolves,
and fewer than the fuel many levels have been traversed; ancestors are
ordered from the furthest one found down to the immediate parent. -/
def getParentSegmentsAux (allSegments : List TextSegment) :
    Option Str → Nat → List TextSegment
  | _, 0 => []
  | none, _ + 1 => []
  | some p, fuel + 1 =>
    if p.isEmpty then []
    else
      match allSegments.find? (fun s => s.id == p) with
      | none => []
      | some parent => getParentSegmentsAux allSegments parent.parentId fuel ++ [parent]

/-- Model of getParentSegments from contextBuilder.ts: ancestor chain of
a segment, cut off at the context level limit. -/
def getParentSegments (segment : TextSegment) (allSegments : List TextSegment) :
    List TextSegment :=
  getParentSegmentsAux allSegments segment.parentId CONTEXT_LEVEL_LIMIT

/-- Rendered line of one ancestor in the Context path, indented two
spaces per index. -/
def contextPathLine (index : Nat) (parent : TextSegment) : Str :=
  List.replicate (2 * index) ' ' ++ str "- " ++ parent.title ++ str "\n"

/-- Rendered lines of the Context path, one per ancestor. -/
def contextPathEntries (parents : List TextSegment) : List Str :=
  parents.enum.map (fun ip => contextPathLine ip.1 ip.2)

/-- Concatenation of a list of strings. -/
def joinStrs (l : List Str) : Str := l.foldr (fun a b => a ++ b) []

/-- Model of buildContextualInformation from contextBuilder.ts: at level
zero only the original-search line; otherwise the original-search line
followed, when ancestors exist, by the Context path block, the whole
text trimmed. -/
def buildContextualInformation (level : Nat) (parentSegments : List TextSegment)
    (originalQuery : Str) : Str :=
  if level = 0 then
    str "Original search: \"" ++ originalQuery ++ str "\""
  else
    trim (if parentSegments.isEmpty then
        str "Original search: \"" ++ originalQuery ++ str "\"\n"
      else
        str "Original search: \"" ++ originalQuery ++ str "\"\n"
          ++ str "Context path:\n"
          ++ joinStrs (contextPathEntries parentSegments))

/-- Result record of createContextualPrompt. -/
structure ContextualPromptR where
  prompt : Str
  contextualInformation : Str
deriving Repr, DecidableEq

/-- Model of createContextualPrompt from contextBuilder.ts: the rendered
contextual information is embedded verbatim in the outbound expansion
prompt; no truncation is applied on this path. -/
def createContextualPrompt (segment : TextSegment)
    (allSegments : List TextSegment) (originalQuery : Str) : ContextualPromptR :=
  let parentSegments := getParentSegments segment allSegments
  let contextualInformation :=
    buildContextualInformation segment.level parentSegments originalQuery
  { prompt :=
      str "Expand on: \x27" ++ segment.title ++ str "\x27 - \x27"
        ++ segment.content
        ++ str "\x27. Provide 3-5 sub-points with simple explanations (max 50 words each). Use examples and step-by-step details.\n\nCONTEXT: "
        ++ contextualInformation
        ++ str "\n\nPlease provide 3-5 sub-points that build naturally on this exploration path. Make sure your explanations are relevant to the context above and help the user dive deeper into this specific aspect of \""
        ++ originalQuery
        ++ str "\".\n\nRespond in JSON format:\n```json\n\x7b\n  \"list\": [\n    \x7b\n      \"title\": \"Sub-point Title\",\n      \"content\": \"Clear explanation with examples (max 50 words)\"\n    \x7d\n  ]\n\x7d\n```",
    contextualInformation := contextualInformation }

/-- Character budget of the (unused) ContextBuilder class in
segmentUtils.ts (DEFAULT_CONTEXT_CONFIG.maxContextLength). -/
def DEFAULT_MAX_CONTEXT_LENGTH : Nat := 2000

/-- Index of the last newline of a string, when one exists (model of
the JavaScript lastIndexOf with the miss case as none). -/
def lastNewlinePos : Str → Option Nat
  | [] => none
  | c :: rest =>
    match lastNewlinePos rest with
    | some n => some (n + 1)
    | none => if c == '\n' then some 0 else none

/-- Model of ContextBuilder.truncateContextIfNeeded from
segmentUtils.ts: text within the budget is returned unchanged; longer
text is cut twenty characters short of the budget, then further cut at
the last newline of that prefix when one exists at a positive index,
with an explicit truncation marker appended. -/
def truncateContextIfNeeded (contextInfo : Str) : Str :=
  if contextInfo.length ≤ DEFAULT_MAX_CONTEXT_LENGTH then contextInfo
  else
    match lastNewlinePos (contextInfo.take (DEFAULT_MAX_CONTEXT_LENGTH - 20)) with
    | some n =>
      if 0 < n then
        (contextInfo.take (DEFAULT_MAX_CONTEXT_LENGTH - 20)).take n
          ++ str "\n... [context truncated for length]"
      else
        contextInfo.take (DEFAULT_MAX_CONTEXT_LENGTH - 20) ++ str "... [truncated]"
    | none => contextInfo.take (DEFAULT_MAX_CONTEXT_LENGTH - 20) ++ str "... [truncated]"

/-- Link that the ancestor traversal would follow next after producing
the given ancestor list: the parent link of the furthest ancestor
found, or the starting link when no ancestor was found. -/
def auxLink (pid : Option Str) (parents : List TextSegment) : Option Str :=
  match parents.head? with
  | some h => h.parentId
  | none => pid

theorem getParentSegmentsAux_length_le (all : List TextSegment) :
    ∀ fuel pid, (getParentSegmentsAux all pid fuel).length ≤ fuel := by
  intro fuel
  induction fuel with
  | zero => intro pid; cases pid <;> simp [getParentSegmentsAux]
  | succ n ih =>
      intro pid
      cases pid with
      | none => simp [getParentSegmentsAux]
      | some p =>
          cases hp : p.isEmpty with
          | true => simp [getParentSegmentsAux, hp]
          | false =>
              cases hfind : all.find? (fun s => s.id == p) with
              | none => simp [getParentSegmentsAux, hp, hfind]
              | some parent =>
                  simp only [getParentSegmentsAux, hp, hfind, Bool.false_eq_true,
                    if_false, List.length_append, List.length_cons, List.length_nil]
                  have := ih parent.parentId
                  omega

theorem getParentSegmentsAux_stop (all : List TextSegment) :
    ∀ fuel pid, (getParentSegmentsAux all pid fuel).length < fuel →
      strTruthy (auxLink pid (getParentSegmentsAux all pid fuel)) = false ∨
      ∃ p, auxLink pid (getParentSegmentsAux all pid fuel) = some p ∧
        all.find? (fun s => s.id == p) = none := by
  intro fuel
  induction fuel with
  | zero => intro pid h; omega
  | succ n ih =>
      intro pid h
      cases pid with
      | none => left; simp [getParentSegmentsAux, auxLink, strTruthy]
      | some p =>
          cases hp : p.isEmpty with
          | true =>
              left
              simp [getParentSegmentsAux, hp, auxLink, strTruthy]
          | false =>
              cases hfind : all.find? (fun s => s.id == p) with
              | none =>
                  right
                  exact ⟨p, by simp [getParentSegmentsAux, hp, hfind, auxLink], hfind⟩
              | some parent =>
                  have hform : getParentSegmentsAux all (some p) (n + 1) =
                      getParentSegmentsAux all parent.parentId n ++ [parent] := by
                    simp [getParentSegmentsAux, hp, hfind]
                  rw [hform] at h ⊢
                  have hlt : (getParentSegmentsAux all parent.parentId n).length < n := by
                    simp only [List.length_append, List.length_cons, List.length_nil] at h
                    omega
                  have hih := ih parent.parentId hlt
                  cases hxs : getParentSegmentsAux all parent.parentId n with
                  | nil =>
                      rw [hxs] at hih
                      simpa [auxLink] using hih
                  | cons a as =>
                      rw [hxs] at hih
                      simpa [auxLink] using hih

/-- C7: for every segment and segment set (in particular those whose
ancestor chain has length ten) the ancestor titles rendered in the
Context path number at most four, because the traversal stops at the
four-level limit; and whenever it stops short of the limit, the next
link is a root (falsy parentId) or a link that does not resolve in the
supplied segment set. -/
theorem c7_contextDepthBound :
    ∀ (segment : TextSegment) (allSegments : List TextSegment),
      ((getParentSegments segment allSegments).map (fun p => p.title)).length ≤
        CONTEXT_LEVEL_LIMIT ∧
      (contextPathEntries (getParentSegments segment allSegments)).length ≤ 4 ∧
      ((getParentSegments segment allSegments).length < CONTEXT_LEVEL_LIMIT →
        strTruthy (auxLink segment.parentId
            (getParentSegments segment allSegments)) = false ∨
        ∃ p, auxLink segment.parentId (getParentSegments segment allSegments) =
            some p ∧
          allSegments.find? (fun s => s.id == p) = none) := by
  intro segment allSegments
  refine ⟨?_, ?_, ?_⟩
  · simpa using getParentSegmentsAux_length_le allSegments CONTEXT_LEVEL_LIMIT
      segment.parentId
  · have := getParentSegmentsAux_length_le allSegments CONTEXT_LEVEL_LIMIT
      segment.parentId
    simpa [contextPathEntries, CONTEXT_LEVEL_LIMIT] using this
  · intro h
    exact getParentSegmentsAux_stop allSegments CONTEXT_LEVEL_LIMIT
      segment.parentId h

/-- Concrete ten-deep ancestor chain used as witness input. -/
def chainAll : List TextSegment :=
  (List.range 10).map (fun i =>
    ⟨str ("n" ++ toString i), str ("t" ++ toString i), str "c", i,
      if i = 0 then none else some (str ("n" ++ toString (i - 1)))⟩)

/-- Concrete deepest segment of the ten-deep chain. -/
def chainTip : TextSegment :=
  ⟨str "tip", str "tip title", str "c", 10, some (str "n9")⟩

/-- Witness for C7 at concrete inputs: on a ten-deep ancestor chain the
rendered Context path has at most four (indeed exactly four) entries,
and on a dangling parent link the traversal stops because the link does
not resolve. -/
theorem c7_contextDepthBound_witness :
    ((getParentSegments chainTip chainAll).map (fun p => p.title)).length ≤
        CONTEXT_LEVEL_LIMIT ∧
    (getParentSegments chainTip chainAll).length = 4 ∧
    (strTruthy (auxLink (⟨str "d", str "t", str "c", 1,
          some (str "missing")⟩ : TextSegment).parentId
        (getParentSegments ⟨str "d", str "t", str "c", 1,
          some (str "missing")⟩ [])) = false ∨
      ∃ p, auxLink (⟨str "d", str "t", str "c", 1,
          some (str "missing")⟩ : TextSegment).parentId
          (getParentSegments ⟨str "d", str "t", str "c", 1,
            some (str "missing")⟩ []) = some p ∧
        List.find? (fun s => s.id == p) ([] : List TextSegment) = none) :=
  ⟨(c7_contextDepthBound chainTip chainAll).1, by decide,
    (c7_contextDepthBound ⟨str "d", str "t", str "c", 1, some (str "missing")⟩
      []).2.2 (by decide)⟩

/-- Minimal JSON value model for the parsed AI response. -/
inductive Json where
  | jnull : Json
  | jbool : Bool → Json
  | jnum : Int → Json
  | jstr : Str → Json
  | jarr : List Json → Json
  | jobj : List (Str × Json) → Json

/-- JavaScript truthiness of a JSON value: null, false, zero and the
empty string are falsy; arrays and objects are always truthy. -/
def jsonTruthy : Json → Bool
  | .jnull => false
  | .jbool b => b
  | .jnum n => n != 0
  | .jstr s => !s.isEmpty
  | .jarr _ => true
  | .jobj _ => true

/-- JavaScript property access on a parsed JSON value: a named field of
an object (last duplicate wins, as JSON.parse keeps the last binding),
undefined on every non-object. -/
def jsProp (j : Json) (name : Str) : Option Json :=
  match j with
  | .jobj fields => fields.foldl (fun acc f => if f.1 == name then some f.2 else acc) none
  | _ => none

/-- Failure modes of parseSegmentsFromResponse: a JSON syntax error
from JSON.parse, the explicit invalid-structure error thrown when the
parsed value is falsy or carries no list array, and a type error from
calling trim on a truthy non-string title or content (or from reading a
property of a null list entry). -/
inductive ParseErr where
  | syntaxError : ParseErr
  | invalidStructure : ParseErr
  | typeError : ParseErr
deriving Repr, DecidableEq

/-- Splitting of a string at the first occurrence of a pattern,
returning the part before the occurrence and the part after it. -/
def splitFirst (pat : Str) : Str → Option (Str × Str)
  | [] => if pat.isPrefixOf ([] : Str) then some ([], []) else none
  | c :: rest =>
    if pat.isPrefixOf (c :: rest) then some ([], (c :: rest).drop pat.length)
    else (splitFirst pat rest).map (fun pr => (c :: pr.1, pr.2))

/-- Fence stripping of parseSegmentsFromResponse: the response is
trimmed; when a json fence opener occurs and a closing fence follows
it, the trimmed text between the first opener and the first closing
fence after it replaces the response (this is what the non-greedy
regex of the source extracts); otherwise the trimmed response is kept. -/
def extractJsonStr (response : Str) : Str :=
  match splitFirst (str "```json") (trim response) with
  | none => trim response
  | some (_, rest) =>
    match splitFirst (str "```") rest with
    | none => trim response
    | some (content, _) => trim content

/-- Model of createTextSegment from segmentUtils.ts, with the fresh
uuid id passed in explicitly. -/
def createTextSegment (id : Str) (title content : Str) (level : Nat)
    (parentId : Option Str) : TextSegment :=
  ⟨id, title, content, level, parentId⟩

/-- Per-entry step of the response list loop: a non-empty string entry
becomes a segment using its text as title and content; an object entry
with truthy title and content fields becomes a segment from their
trimmed string values (a truthy non-string in either field is the type
error of calling trim on it); a null entry is the type error of reading
a property of null; every other entry is skipped. -/
def parseListItem (item : Json) : Except ParseErr (Option (Str × Str)) :=
  match item with
  | .jstr s => if (trim s).isEmpty then .ok none else .ok (some (trim s, trim s))
  | .jnull => .error .typeError
  | .jobj fields =>
    match jsProp (.jobj fields) (str "title"), jsProp (.jobj fields) (str "content") with
    | some t, some c =>
      if jsonTruthy t && jsonTruthy c then
        match t, c with
        | .jstr ts, .jstr cs => .ok (some (trim ts, trim cs))
        | _, _ => .error .typeError
      else .ok none
    | _, _ => .ok none
  | .jarr _ => .ok none
  | .jbool _ => .ok none
  | .jnum _ => .ok none

/-- Loop of parseSegmentsFromResponse over the list entries: accepted
entries become segments with fresh generated ids, skipped entries are
dropped, a type error aborts the whole parse. -/
def parseListItems (freshId : Nat → Str) (level : Nat) (parentId : Option Str) :
    List Json → Nat → Except ParseErr (List TextSegment)
  | [], _ => .ok []
  | item :: rest, k =>
    match parseListItem item with
    | .error e => .error e
    | .ok none => parseListItems freshId level parentId rest k
    | .ok (some (t, c)) =>
      match parseListItems freshId level parentId rest (k + 1) with
      | .error e => .error e
      | .ok segs => .ok (createTextSegment (freshId k) t c level parentId :: segs)

/-- Validation step of parseSegmentsFromResponse after JSON.parse: a
falsy parsed value or a parsed value whose list property is not an
array raises the invalid-structure error; otherwise the list entries
are processed. -/
def parseSegmentsFromJson (freshId : Nat → Str) (j : Json) (level : Nat)
    (parentId : Option Str) : Except ParseErr (List TextSegment) :=
  if !(jsonTruthy j) then .error .invalidStructure
  else
    match jsProp j (str "list") with
    | some (.jarr items) => parseListItems freshId level parentId items 0
    | _ => .error .invalidStructure

/-- Model of AIService.parseSegmentsFromResponse: fence stripping, then
JSON.parse (supplied as a parameter, none modelling a syntax error),
then structure validation and entry extraction. -/
def parseSegmentsFromResponse (jsonParse : Str → Option Json)
    (freshId : Nat → Str) (response : Str) (level : Nat)
    (parentId : Option Str) : Except ParseErr (List TextSegment) :=
  match jsonParse (extractJsonStr response) with
  | none => .error .syntaxError
  | some j => parseSegmentsFromJson freshId j level parentId

/-- Backtick character, written by code point. -/
def btChar : Char := Char.ofNat 96

theorem mem_dropWhile {α : Type} {p : α → Bool} {l : List α} {c : α}
    (h : c ∈ l.dropWhile p) : c ∈ l := by
  induction l with
  | nil => simp [List.dropWhile] at h
  | cons x xs ih =>
      by_cases hx : p x
      · simp only [List.dropWhile, hx] at h
        exact List.mem_cons_of_mem x (ih h)
      · simp only [List.dropWhile, hx] at h
        simpa using h

theorem dropWhile_append_cons {α : Type} (p : α → Bool) (a : List α)
    {c : α} (d : List α) (hc : p c = false) :
    List.dropWhile p (a ++ c :: d) = List.dropWhile p a ++ c :: d := by
  induction a with
  | nil => simp [List.dropWhile, hc]
  | cons x xs ih =>
      by_cases hx : p x
      · simpa [List.dropWhile, hx] using ih
      · simp [List.dropWhile, hx]

theorem trimLeft_append_cons (a : Str) {c : Char} (d : Str)
    (hc : isWS c = false) :
    trimLeft (a ++ c :: d) = trimLeft a ++ c :: d :=
  dropWhile_append_cons isWS a d hc

theorem trimRight_append_cons (a : Str) {c : Char} (d : Str)
    (hc : isWS c = false) :
    trimRight (a ++ c :: d) = a ++ c :: trimRight d := by
  unfold trimRight
  have h1 : (a ++ c :: d).reverse = d.reverse ++ c :: a.reverse := by simp
  rw [h1, dropWhile_append_cons isWS d.reverse a.reverse hc]
  simp

theorem isPrefixOf_self_append (pat r : Str) :
    pat.isPrefixOf (pat ++ r) = true := by
  rw [List.isPrefixOf_iff_prefix]
  exact List.prefix_append pat r

theorem splitFirst_hit (c0 : Char) (pat s1 s2 : Str)
    (h1 : ∀ x ∈ s1, x ≠ c0) :
    splitFirst (c0 :: pat) (s1 ++ (c0 :: pat) ++ s2) = some (s1, s2) := by
  induction s1 with
  | nil =>
      simp only [List.nil_append]
      rw [show (c0 :: pat) ++ s2 = c0 :: (pat ++ s2) from rfl]
      unfold splitFirst
      have hpre : (c0 :: pat).isPrefixOf (c0 :: (pat ++ s2)) = true := by
        rw [← List.cons_append]
        exact isPrefixOf_self_append _ _
      rw [hpre]
      simp only [if_true]
      have hdrop : (c0 :: (pat ++ s2)).drop (c0 :: pat).length = s2 := by
        rw [← List.cons_append, List.drop_left]
      simp [hdrop]
  | cons x xs ih =>
      have hx : x ≠ c0 := h1 x (by simp)
      have hxs : ∀ y ∈ xs, y ≠ c0 := fun y hy => h1 y (by simp [hy])
      have hpre : (c0 :: pat).isPrefixOf (x :: (xs ++ (c0 :: pat) ++ s2)) = false := by
        simp only [List.isPrefixOf]
        have : (c0 == x) = false := by
          simp [beq_iff_eq]
          exact fun he => hx he.symm
        simp [this]
      show splitFirst (c0 :: pat) (x :: (xs ++ (c0 :: pat) ++ s2)) = _
      unfold splitFirst
      rw [hpre]
      simp only [Bool.false_eq_true, if_false]
      rw [ih hxs]
      rfl

theorem splitFirst_miss (c0 : Char) (pat s : Str)
    (h : ∀ x ∈ s, x ≠ c0) :
    splitFirst (c0 :: pat) s = none := by
  induction s with
  | nil => simp [splitFirst, List.isPrefixOf]
  | cons x xs ih =>
      have hx : x ≠ c0 := h x (by simp)
      have hxs : ∀ y ∈ xs, y ≠ c0 := fun y hy => h y (by simp [hy])
      have hpre : (c0 :: pat).isPrefixOf (x :: xs) = false := by
        simp only [List.isPrefixOf]
        have : (c0 == x) = false := by
          simp [beq_iff_eq]
          exact fun he => hx he.symm
        simp [this]
      unfold splitFirst
      rw [hpre]
      simp [ih hxs]

theorem trim_noBacktick {l : Str} (h : ∀ c ∈ l, c ≠ btChar) :
    ∀ c ∈ trim l, c ≠ btChar := by
  intro c hc
  apply h
  unfold trim trimRight trimLeft at hc
  have h1 : c ∈ (trimLeft l).reverse.dropWhile isWS := by
    simpa using hc
  have h2 : c ∈ (trimLeft l).reverse := mem_dropWhile h1
  have h3 : c ∈ trimLeft l := by simpa using h2
  exact mem_dropWhile h3

theorem extractJsonStr_eq_of (resp inner rest content tail2 : Str)
    (hA : splitFirst (str "```json") (trim resp) = some (inner, rest))
    (hB : splitFirst (str "```") rest = some (content, tail2)) :
    extractJsonStr resp = trim content := by
  simp [extractJsonStr, hA, hB]

theorem extractJsonStr_fenced (n1 p n2 : Str)
    (h1 : ∀ c ∈ n1, c ≠ btChar) (hp : ∀ c ∈ p, c ≠ btChar) :
    extractJsonStr (n1 ++ str "```json" ++ p ++ str "```" ++ n2) = trim p := by
  have hWSbt : isWS btChar = false := by decide
  have hF : str "```json" = btChar :: str "``json" := by decide
  have hC : str "```" = btChar :: str "``" := by decide
  have hCl : str "```" = [btChar, btChar, btChar] := by decide
  have htrim : trim (n1 ++ str "```json" ++ p ++ str "```" ++ n2)
      = trimLeft n1 ++ str "```json" ++ p ++ str "```" ++ trimRight n2 := by
    unfold trim
    have e1 : n1 ++ str "```json" ++ p ++ str "```" ++ n2
        = n1 ++ btChar :: (str "``json" ++ p ++ str "```" ++ n2) := by
      rw [hF]; simp [List.append_assoc]
    rw [e1, trimLeft_append_cons n1 _ hWSbt]
    have e2 : trimLeft n1 ++ btChar :: (str "``json" ++ p ++ str "```" ++ n2)
        = (trimLeft n1 ++ str "```json" ++ p ++ [btChar, btChar]) ++ btChar :: n2 := by
      rw [hF, hCl]; simp [List.append_assoc]
    rw [e2, trimRight_append_cons _ n2 hWSbt, hCl]
    simp [List.append_assoc]
  have hn1' : ∀ c ∈ trimLeft n1, c ≠ btChar := fun c hc => h1 c (mem_dropWhile hc)
  have hsf1 : splitFirst (str "```json")
      (trimLeft n1 ++ str "```json" ++ p ++ str "```" ++ trimRight n2)
      = some (trimLeft n1, p ++ str "```" ++ trimRight n2) := by
    have hshape : trimLeft n1 ++ str "```json" ++ p ++ str "```" ++ trimRight n2
        = trimLeft n1 ++ (btChar :: str "``json")
            ++ (p ++ str "```" ++ trimRight n2) := by
      rw [hF]; simp [List.append_assoc]
    rw [hshape, hF]
    exact splitFirst_hit btChar (str "``json") (trimLeft n1)
      (p ++ str "```" ++ trimRight n2) hn1'
  have hsf2 : splitFirst (str "```") (p ++ str "```" ++ trimRight n2)
      = some (p, trimRight n2) := by
    rw [hC]
    exact splitFirst_hit btChar (str "``") p (trimRight n2) hp
  exact extractJsonStr_eq_of _ _ _ _ _ (htrim ▸ hsf1) hsf2

theorem extractJsonStr_noFence (p : Str) (hp : ∀ c ∈ p, c ≠ btChar) :
    extractJsonStr p = trim p := by
  have hF : str "```json" = btChar :: str "``json" := by decide
  have hmiss : splitFirst (str "```json") (trim p) = none := by
    rw [hF]
    exact splitFirst_miss btChar (str "``json") (trim p) (trim_noBacktick hp)
  unfold extractJsonStr
  rw [hmiss]

theorem parse_fenced_eq (jsonParse : Str → Option Json) (freshId : Nat → Str)
    (n1 p n2 : Str) (level : Nat) (parentId : Option Str)
    (h1 : ∀ c ∈ n1, c ≠ btChar) (hp : ∀ c ∈ p, c ≠ btChar) :
    parseSegmentsFromResponse jsonParse freshId
        (n1 ++ str "```json" ++ p ++ str "```" ++ n2) level parentId =
      parseSegmentsFromResponse jsonParse freshId p level parentId := by
  unfold parseSegmentsFromResponse
  rw [extractJsonStr_fenced n1 p n2 h1 hp, extractJsonStr_noFence p hp]

theorem parseListItem_missing_content (fields : List (Str × Json))
    (hc : jsProp (Json.jobj fields) (str "content") = none) :
    parseListItem (Json.jobj fields) = .ok none := by
  cases hT : jsProp (Json.jobj fields) (str "title") <;>
    simp [parseListItem, hT, hc]

theorem parseListItems_drop_missing_content (freshId : Nat → Str)
    (level : Nat) (parentId : Option Str) (pre : List Json)
    (fields : List (Str × Json)) (post : List Json)
    (hc : jsProp (Json.jobj fields) (str "content") = none) :
    ∀ k, parseListItems freshId level parentId (pre ++ Json.jobj fields :: post) k
      = parseListItems freshId level parentId (pre ++ post) k := by
  induction pre with
  | nil =>
      intro k
      simp only [List.nil_append]
      simp [parseListItems, parseListItem_missing_content fields hc]
  | cons x xs ih =>
      intro k
      simp only [List.cons_append]
      cases hx : parseListItem x with
      | error e => simp [parseListItems, hx]
      | ok o =>
          cases o with
          | none =>
              simp only [parseListItems, hx]
              exact ih k
          | some tc =>
              obtain ⟨t, c⟩ := tc
              simp only [parseListItems, hx]
              rw [ih (k + 1)]

theorem parse_no_list_error (jsonParse : Str → Option Json) (freshId : Nat → Str)
    (resp : Str) (level : Nat) (parentId : Option Str) (j : Json)
    (hj : jsonParse (extractJsonStr resp) = some j)
    (hl : ∀ items, jsProp j (str "list") ≠ some (Json.jarr items)) :
    parseSegmentsFromResponse jsonParse freshId resp level parentId =
      .error .invalidStructure := by
  have hred : parseSegmentsFromResponse jsonParse freshId resp level parentId
      = parseSegmentsFromJson freshId j level parentId := by
    simp [parseSegmentsFromResponse, hj]
  rw [hred]
  cases ht : jsonTruthy j with
  | false => simp [parseSegmentsFromJson, ht]
  | true =>
      cases hjl : jsProp j (str "list") with
      | none => simp [parseSegmentsFromJson, ht, hjl]
      | some v =>
          cases v with
          | jarr items => exact absurd hjl (hl items)
          | jnull => simp [parseSegmentsFromJson, ht, hjl]
          | jbool b => simp [parseSegmentsFromJson, ht, hjl]
          | jnum n => simp [parseSegmentsFromJson, ht, hjl]
          | jstr s => simp [parseSegmentsFromJson, ht, hjl]
          | jobj fs => simp [parseSegmentsFromJson, ht, hjl]

/-- C8: a response whose JSON payload is wrapped in a json fence with
backtick-free prose noise around the fence parses exactly as the bare
payload does; a list entry whose object carries no content field is
dropped without failing its sibling entries; and a parsed value with no
list array field raises the invalid-structure (malformed output)
failure. -/
theorem c8_parserTolerance :
    (∀ (jsonParse : Str → Option Json) (freshId : Nat → Str)
        (n1 p n2 : Str) (level : Nat) (parentId : Option Str),
      (∀ c ∈ n1, c ≠ btChar) → (∀ c ∈ p, c ≠ btChar) →
      parseSegmentsFromResponse jsonParse freshId
          (n1 ++ str "```json" ++ p ++ str "```" ++ n2) level parentId =
        parseSegmentsFromResponse jsonParse freshId p level parentId) ∧
    (∀ (freshId : Nat → Str) (level : Nat) (parentId : Option Str)
        (pre : List Json) (fields : List (Str × Json)) (post : List Json)
        (k : Nat),
      jsProp (Json.jobj fields) (str "content") = none →
      parseListItems freshId level parentId (pre ++ Json.jobj fields :: post) k =
        parseListItems freshId level parentId (pre ++ post) k) ∧
    (∀ (jsonParse : Str → Option Json) (freshId : Nat → Str) (resp : Str)
        (level : Nat) (parentId : Option Str) (j : Json),
      jsonParse (extractJsonStr resp) = some j →
      (∀ items, jsProp j (str "list") ≠ some (Json.jarr items)) →
      parseSegmentsFromResponse jsonParse freshId resp level parentId =
        .error .invalidStructure) := by
  refine ⟨?_, ?_, ?_⟩
  · intro jsonParse freshId n1 p n2 level parentId h1 hp
    exact parse_fenced_eq jsonParse freshId n1 p n2 level parentId h1 hp
  · intro freshId level parentId pre fields post k hc
    exact parseListItems_drop_missing_content freshId level parentId pre fields
      post hc k
  · intro jsonParse freshId resp level parentId j hj hl
    exact parse_no_list_error jsonParse freshId resp level parentId j hj hl

/-- Witness for C8 at concrete inputs: a fenced payload with prose
noise parses like the bare payload, an entry without content is dropped
while both siblings survive, and an object without a list field yields
the invalid-structure failure. -/
theorem c8_parserTolerance_witness :
    parseSegmentsFromResponse
        (fun _ => some (Json.jobj [(str "list", Json.jarr [])]))
        (fun _ => str "id")
        (str "Noise before. " ++ str "```json" ++ str " payload "
          ++ str "```" ++ str " noise after") 0 none =
      parseSegmentsFromResponse
        (fun _ => some (Json.jobj [(str "list", Json.jarr [])]))
        (fun _ => str "id") (str " payload ") 0 none ∧
    parseListItems (fun _ => str "id") 0 none
        ([Json.jobj [(str "title", Json.jstr (str "A")),
            (str "content", Json.jstr (str "B"))]]
          ++ Json.jobj [(str "title", Json.jstr (str "C"))]
          :: [Json.jobj [(str "title", Json.jstr (str "D")),
            (str "content", Json.jstr (str "E"))]]) 0 =
      parseListItems (fun _ => str "id") 0 none
        ([Json.jobj [(str "title", Json.jstr (str "A")),
            (str "content", Json.jstr (str "B"))]]
          ++ [Json.jobj [(str "title", Json.jstr (str "D")),
            (str "content", Json.jstr (str "E"))]]) 0 ∧
    parseListItems (fun _ => str "id") 0 none
        ([Json.jobj [(str "title", Json.jstr (str "A")),
            (str "content", Json.jstr (str "B"))]]
          ++ [Json.jobj [(str "title", Json.jstr (str "D")),
            (str "content", Json.jstr (str "E"))]]) 0 =
      .ok [⟨str "id", str "A", str "B", 0, none⟩,
        ⟨str "id", str "D", str "E", 0, none⟩] ∧
    parseSegmentsFromResponse
        (fun _ => some (Json.jobj [(str "data", Json.jarr [])]))
        (fun _ => str "id") (str "x") 0 none = .error .invalidStructure :=
  ⟨c8_parserTolerance.1 (fun _ => some (Json.jobj [(str "list", Json.jarr [])]))
      (fun _ => str "id") (str "Noise before. ") (str " payload ")
      (str " noise after") 0 none (by decide) (by decide),
    c8_parserTolerance.2.1 (fun _ => str "id") 0 none
      [Json.jobj [(str "title", Json.jstr (str "A")),
        (str "content", Json.jstr (str "B"))]]
      [(str "title", Json.jstr (str "C"))]
      [Json.jobj [(str "title", Json.jstr (str "D")),
        (str "content", Json.jstr (str "E"))]] 0 rfl,
    by rfl,
    c8_parserTolerance.2.2 (fun _ => some (Json.jobj [(str "data", Json.jarr [])]))
      (fun _ => str "id") (str "x") 0 none (Json.jobj [(str "data", Json.jarr [])])
      rfl
      (by
        intro items h
        rw [show jsProp (Json.jobj [(str "data", Json.jarr [])]) (str "list")
            = none from rfl] at h
        exact Option.noConfusion h)⟩

theorem lastNewlinePos_get {l : Str} {n : Nat}
    (h : lastNewlinePos l = some n) : l.get? n = some '\n' := by
  induction l generalizing n with
  | nil => simp [lastNewlinePos] at h
  | cons c rest ih =>
      unfold lastNewlinePos at h
      cases hr : lastNewlinePos rest with
      | some m =>
          rw [hr] at h
          simp only [Option.some.injEq] at h
          subst h
          simpa [List.get?] using ih hr
      | none =>
          rw [hr] at h
          by_cases hc : (c == '\n') = true
          · simp only [hc, if_true, Option.some.injEq] at h
            subst h
            simp only [List.get?]
            rw [show c = '\n' from by simpa [beq_iff_eq] using hc]
          · simp [hc] at h

/-- Concrete oversized ancestor title used for the C4 counterexample. -/
def bigTitle : Str := List.replicate 2100 'a'

/-- Concrete parent segment with the oversized title. -/
def bigParent : TextSegment := ⟨str "p", bigTitle, str "c", 0, none⟩

/-- Concrete level-one segment whose expansion renders the oversized
context. -/
def bigChild : TextSegment := ⟨str "s", str "t", str "c2", 1, some (str "p")⟩

theorem getLast?_of_isSuffixOf {s l : Str} (h : s.isSuffixOf l = true)
    (hs : s ≠ []) : l.getLast? = s.getLast? := by
  rw [List.isSuffixOf_iff_suffix] at h
  obtain ⟨t, rfl⟩ := h
  exact List.getLast?_append_of_ne_nil t hs

theorem bigParents_eq :
    getParentSegments bigChild [bigParent, bigChild] = [bigParent] := rfl

theorem bigTitle_split :
    bigParent.title = List.replicate 2099 'a' ++ ['a'] := by
  show bigTitle = _
  rw [bigTitle, show (2100 : Nat) = 2099 + 1 from rfl,
    List.replicate_succ' 2099 'a']

theorem trimLeft_cons_O (M : Str) : trimLeft ('O' :: M) = 'O' :: M := by
  rw [trimLeft, List.dropWhile_cons, if_neg]
  decide

theorem bigContext_eq :
    (createContextualPrompt bigChild [bigParent, bigChild]
        (str "q")).contextualInformation =
      str "Original search: \"q\"\nContext path:\n- "
        ++ (List.replicate 2099 'a' ++ ['a']) := by
  have h1 : (createContextualPrompt bigChild [bigParent, bigChild]
      (str "q")).contextualInformation =
      buildContextualInformation 1 [bigParent] (str "q") := by
    simp only [createContextualPrompt]
    rw [bigParents_eq]
    rfl
  have h2 : buildContextualInformation 1 [bigParent] (str "q") =
      trim (str "Original search: \"" ++ str "q" ++ str "\"\n"
        ++ str "Context path:\n" ++ joinStrs (contextPathEntries [bigParent])) :=
    rfl
  have h3 : joinStrs (contextPathEntries [bigParent]) =
      ((str "- " ++ bigParent.title) ++ str "\n") ++ [] := rfl
  rw [h1, h2, h3, List.append_nil, bigTitle_split]
  have e1 : str "Original search: \"" ++ str "q" ++ str "\"\n"
        ++ str "Context path:\n"
        ++ ((str "- " ++ (List.replicate 2099 'a' ++ ['a'])) ++ str "\n")
      = (str "Original search: \"" ++ str "q" ++ str "\"\n"
          ++ str "Context path:\n" ++ str "- ")
        ++ (List.replicate 2099 'a' ++ ('a' :: str "\n")) := by
    simp only [List.append_assoc, List.singleton_append]
  have e2 : str "Original search: \"" ++ str "q" ++ str "\"\n"
        ++ str "Context path:\n" ++ str "- "
      = str "Original search: \"q\"\nContext path:\n- " := by decide
  have e3 : str "Original search: \"q\"\nContext path:\n- "
      = 'O' :: str "riginal search: \"q\"\nContext path:\n- " := rfl
  rw [e1, e2, e3]
  have e4 : ('O' :: str "riginal search: \"q\"\nContext path:\n- ")
        ++ (List.replicate 2099 'a' ++ ('a' :: str "\n"))
      = ('O' :: (str "riginal search: \"q\"\nContext path:\n- "
          ++ List.replicate 2099 'a')) ++ 'a' :: str "\n" := by
    simp only [List.cons_append, List.append_assoc]
  rw [e4]
  unfold trim
  rw [show ('O' :: (str "riginal search: \"q\"\nContext path:\n- "
        ++ List.replicate 2099 'a')) ++ 'a' :: str "\n"
      = 'O' :: ((str "riginal search: \"q\"\nContext path:\n- "
        ++ List.replicate 2099 'a') ++ 'a' :: str "\n") from by
    simp only [List.cons_append]]
  rw [trimLeft_cons_O]
  rw [show 'O' :: ((str "riginal search: \"q\"\nContext path:\n- "
        ++ List.replicate 2099 'a') ++ 'a' :: str "\n")
      = ('O' :: (str "riginal search: \"q\"\nContext path:\n- "
        ++ List.replicate 2099 'a')) ++ 'a' :: str "\n" from by
    simp only [List.cons_append]]
  rw [trimRight_append_cons _ (str "\n") (by decide)]
  rw [show trimRight (str "\n") = [] from by decide]
  simp only [List.cons_append, List.append_assoc]

theorem bigContext_length :
    (createContextualPrompt bigChild [bigParent, bigChild]
        (str "q")).contextualInformation.length = 2137 := by
  rw [bigContext_eq]
  rw [List.length_append, List.length_append]
  rw [show (str "Original search: \"q\"\nContext path:\n- ").length = 37
    from by decide]
  rw [List.length_replicate]
  decide

theorem bigContext_getLast :
    ((createContextualPrompt bigChild [bigParent, bigChild]
        (str "q")).contextualInformation).getLast? = some 'a' := by
  rw [bigContext_eq]
  rw [show str "Original search: \"q\"\nContext path:\n- "
        ++ (List.replicate 2099 'a' ++ ['a'])
      = (str "Original search: \"q\"\nContext path:\n- "
        ++ List.replicate 2099 'a') ++ ['a'] from by
    simp only [List.append_assoc]]
  exact List.getLast?_concat _

/-- Counterexample for C4: on the expansion request path the rendered
contextual information of a concrete segment is 2137 characters long,
exceeding the 2000-character budget, and ends in a letter rather than a
truncation marker — the truncation routine of the unused ContextBuilder
class is not applied on the path that actually sends the context. -/
theorem c4_counterexample :
    2000 < (createContextualPrompt bigChild [bigParent, bigChild]
        (str "q")).contextualInformation.length ∧
    ¬((str "... [context truncated for length]").isSuffixOf
        ((createContextualPrompt bigChild [bigParent, bigChild]
          (str "q")).contextualInformation) = true) ∧
    ¬((str "... [truncated]").isSuffixOf
        ((createContextualPrompt bigChild [bigParent, bigChild]
          (str "q")).contextualInformation) = true) := by
  refine ⟨?_, ?_, ?_⟩
  · rw [bigContext_length]; omega
  · intro hsuf
    have hh := getLast?_of_isSuffixOf hsuf (by decide)
    rw [bigContext_getLast] at hh
    rw [show (str "... [context truncated for length]").getLast? = some ']'
      from by decide] at hh
    simp at hh
  · intro hsuf
    have hh := getLast?_of_isSuffixOf hsuf (by decide)
    rw [bigContext_getLast] at hh
    rw [show (str "... [truncated]").getLast? = some ']' from by decide] at hh
    simp at hh

theorem truncate_within_budget (s : Str)
    (h : s.length ≤ DEFAULT_MAX_CONTEXT_LENGTH) :
    truncateContextIfNeeded s = s := by
  simp [truncateContextIfNeeded, h]

theorem truncate_cuts_at_newline (s : Str) (n : Nat)
    (hlen : DEFAULT_MAX_CONTEXT_LENGTH < s.length)
    (hnl : lastNewlinePos (s.take (DEFAULT_MAX_CONTEXT_LENGTH - 20)) = some n)
    (hn : 0 < n) :
    truncateContextIfNeeded s =
      (s.take (DEFAULT_MAX_CONTEXT_LENGTH - 20)).take n
        ++ str "\n... [context truncated for length]" ∧
    s.get? n = some '\n' := by
  constructor
  · have hle : ¬(s.length ≤ DEFAULT_MAX_CONTEXT_LENGTH) := by omega
    simp only [truncateContextIfNeeded, hle, if_false, hnl, hn, if_true]
  · have hg := lastNewlinePos_get hnl
    have hlt : n < DEFAULT_MAX_CONTEXT_LENGTH - 20 := by
      have h1 := (List.get?_eq_some.1 hg).1
      have h2 : (s.take (DEFAULT_MAX_CONTEXT_LENGTH - 20)).length
          ≤ DEFAULT_MAX_CONTEXT_LENGTH - 20 := by
        simp [List.length_take]
      omega
    rw [← List.get?_take hlt]
    exact hg

theorem contextualInformation_untruncated (segment : TextSegment)
    (allSegments : List TextSegment) (originalQuery : Str) :
    (createContextualPrompt segment allSegments originalQuery).contextualInformation
      = buildContextualInformation segment.level
          (getParentSegments segment allSegments) originalQuery ∧
    ∃ pre post,
      (createContextualPrompt segment allSegments originalQuery).prompt =
        pre ++ (createContextualPrompt segment allSegments
          originalQuery).contextualInformation ++ post := by
  refine ⟨rfl, str "Expand on: \x27" ++ segment.title ++ str "\x27 - \x27"
      ++ segment.content
      ++ str "\x27. Provide 3-5 sub-points with simple explanations (max 50 words each). Use examples and step-by-step details.\n\nCONTEXT: ",
    str "\n\nPlease provide 3-5 sub-points that build naturally on this exploration path. Make sure your explanations are relevant to the context above and help the user dive deeper into this specific aspect of \""
      ++ originalQuery
      ++ str "\".\n\nRespond in JSON format:\n```json\n\x7b\n  \"list\": [\n    \x7b\n      \"title\": \"Sub-point Title\",\n      \"content\": \"Clear explanation with examples (max 50 words)\"\n    \x7d\n  ]\n\x7d\n```", ?_⟩
  simp only [createContextualPrompt, List.append_assoc]

/-- C4 amended: the truncation routine with the 2000-character default
budget exists in the ContextBuilder class of segmentUtils.ts — text
within the budget is unchanged, longer text is cut at the last line
boundary of its 1980-character prefix with an explicit marker appended —
but that class is not invoked on the expansion request path: the
contextual information actually embedded in the outbound prompt by
createContextualPrompt is the raw rendered context, whatever its
length. -/
theorem c4_truncation_amended :
    (∀ s : Str, s.length ≤ DEFAULT_MAX_CONTEXT_LENGTH →
      truncateContextIfNeeded s = s) ∧
    (∀ (s : Str) (n : Nat), DEFAULT_MAX_CONTEXT_LENGTH < s.length →
      lastNewlinePos (s.take (DEFAULT_MAX_CONTEXT_LENGTH - 20)) = some n →
      0 < n →
      truncateContextIfNeeded s =
        (s.take (DEFAULT_MAX_CONTEXT_LENGTH - 20)).take n
          ++ str "\n... [context truncated for length]" ∧
      s.get? n = some '\n') ∧
    (∀ (segment : TextSegment) (allSegments : List TextSegment)
        (originalQuery : Str),
      (createContextualPrompt segment allSegments
          originalQuery).contextualInformation
        = buildContextualInformation segment.level
            (getParentSegments segment allSegments) originalQuery ∧
      ∃ pre post,
        (createContextualPrompt segment allSegments originalQuery).prompt =
          pre ++ (createContextualPrompt segment allSegments
            originalQuery).contextualInformation ++ post) := by
  refine ⟨?_, ?_, ?_⟩
  · intro s h; exact truncate_within_budget s h
  · intro s n h1 h2 h3; exact truncate_cuts_at_newline s n h1 h2 h3
  · intro segment allSegments originalQuery
    exact contextualInformation_untruncated segment allSegments originalQuery

theorem lastNewlinePos_none (l : Str) (h : ∀ c ∈ l, ¬ c = '\n') :
    lastNewlinePos l = none := by
  induction l with
  | nil => rfl
  | cons c rest ih =>
      have hr := ih (fun x hx => h x (by simp [hx]))
      have hc : (c == '\n') = false := by
        have := h c (by simp)
        simp [beq_iff_eq, this]
      unfold lastNewlinePos
      rw [hr, hc]
      simp

theorem lastNewlinePos_append_none (l1 l2 : Str)
    (h2 : lastNewlinePos l2 = none) :
    lastNewlinePos (l1 ++ l2) = lastNewlinePos l1 := by
  induction l1 with
  | nil => simpa using h2
  | cons c rest ih =>
      show lastNewlinePos (c :: (rest ++ l2)) = lastNewlinePos (c :: rest)
      unfold lastNewlinePos
      rw [ih]

/-- Witness for the amended C4 at a concrete 2001-character context
with a newline at index one: the truncation routine cuts at that
newline and appends the marker. -/
theorem c4_truncation_amended_witness :
    truncateContextIfNeeded (str "x\n" ++ List.replicate 1999 'y') =
      ((str "x\n" ++ List.replicate 1999 'y').take
          (DEFAULT_MAX_CONTEXT_LENGTH - 20)).take 1
        ++ str "\n... [context truncated for length]" ∧
    (str "x\n" ++ List.replicate 1999 'y').get? 1 = some '\n' :=
  c4_truncation_amended.2.1 (str "x\n" ++ List.replicate 1999 'y') 1
    (by
      rw [List.length_append, List.length_replicate,
        show (str "x\n").length = 2 from by decide]
      decide)
    (by
      have ht : (str "x\n" ++ List.replicate 1999 'y').take
          (DEFAULT_MAX_CONTEXT_LENGTH - 20)
          = str "x\n" ++ List.replicate 1978 'y' := by
        rw [List.take_append_eq_append_take]
        rw [List.take_of_length_le (by decide :
          (str "x\n").length ≤ DEFAULT_MAX_CONTEXT_LENGTH - 20)]
        rw [show DEFAULT_MAX_CONTEXT_LENGTH - 20 - (str "x\n").length = 1978
          from by decide]
        rw [List.take_replicate]
        rw [show min 1978 1999 = 1978 from by decide]
      rw [ht]
      rw [lastNewlinePos_append_none (str "x\n") (List.replicate 1978 'y')
        (lastNewlinePos_none (List.replicate 1978 'y')
          (fun c hc => by
            rw [List.eq_of_mem_replicate hc]
            decide))]
      decide)
    (by decide)

/-- Role of a chat message at the AI boundary. -/
inductive Role where
  | user : Role
  | assistant : Role
  | sys : Role
deriving Repr, DecidableEq

/-- Chat message of the AI boundary. -/
structure ChatMessage where
  role : Role
  content : Str
deriving Repr, DecidableEq

/-- Corrective instruction appended before each retry, from
AIService.requestWithRetry. -/
def correctiveMessage : ChatMessage :=
  ⟨.user, str "Your previous response was not in the correct JSON format. Please respond exactly in this JSON format:\n```json\n\x7b\n  \"list\": [\n    \x7b\n      \"title\": \"Title Here\",\n      \"content\": \"Content here (max 50 words)\"\n    \x7d\n  ]\n\x7d\n```"⟩

/-- Terminal error message thrown after exhausting the three attempts. -/
def exhaustedMsg : Str :=
  str "Failed to get segments: AI service did not provide valid JSON format after 3 attempts"

/-- Outcome of one sendMessage-and-parse attempt: a successful parse, a
transport failure (sendMessage threw its communication error), a
malformed output (parseSegmentsFromResponse threw), or a cancellation
(the abort signal fired and sendMessage threw the cancel message). -/
inductive AttemptOutcome where
  | success : List TextSegment → AttemptOutcome
  | transportError : AttemptOutcome
  | malformedOutput : AttemptOutcome
  | cancelled : AttemptOutcome

/-- Model of AIService.requestWithRetry: a cancelled attempt resolves to
the empty list at once; a successful attempt resolves to its segments; a
transport or malformed-output failure on attempts zero and one appends
the corrective instruction and retries, and on attempt two throws the
terminal error. Returns the result, the number of attempts actually
made from this call on, and the final message list used. -/
def requestWithRetry (oracle : Nat → AttemptOutcome)
    (messages : List ChatMessage) (attempt : Nat) :
    Except Str (List TextSegment) × Nat × List ChatMessage :=
  match oracle attempt with
  | .cancelled => (.ok [], 1, messages)
  | .success segs => (.ok segs, 1, messages)
  | .transportError | .malformedOutput =>
    if h : attempt < 2 then
      let r := requestWithRetry oracle (messages ++ [correctiveMessage])
        (attempt + 1)
      (r.1, r.2.1 + 1, r.2.2)
    else
      (.error exhaustedMsg, 1, messages)
termination_by 3 - attempt
decreasing_by all_goals omega

theorem requestWithRetry_fail_step (oracle : Nat → AttemptOutcome)
    (messages : List ChatMessage) (attempt : Nat)
    (h : oracle attempt = .transportError ∨ oracle attempt = .malformedOutput)
    (hlt : attempt < 2) :
    requestWithRetry oracle messages attempt =
      ((requestWithRetry oracle (messages ++ [correctiveMessage])
          (attempt + 1)).1,
        (requestWithRetry oracle (messages ++ [correctiveMessage])
          (attempt + 1)).2.1 + 1,
        (requestWithRetry oracle (messages ++ [correctiveMessage])
          (attempt + 1)).2.2) := by
  rcases h with h | h <;> rw [requestWithRetry, h] <;> simp [hlt]

theorem requestWithRetry_fail_last (oracle : Nat → AttemptOutcome)
    (messages : List ChatMessage)
    (h : oracle 2 = .transportError ∨ oracle 2 = .malformedOutput) :
    requestWithRetry oracle messages 2 = (.error exhaustedMsg, 1, messages) := by
  rcases h with h | h <;> rw [requestWithRetry, h] <;> simp

theorem requestWithRetry_allFail (oracle : Nat → AttemptOutcome)
    (messages : List ChatMessage)
    (h : ∀ i, oracle i = .transportError ∨ oracle i = .malformedOutput) :
    requestWithRetry oracle messages 0 =
      (.error exhaustedMsg, 3,
        messages ++ [correctiveMessage] ++ [correctiveMessage]) := by
  rw [requestWithRetry_fail_step oracle messages 0 (h 0) (by decide)]
  rw [requestWithRetry_fail_step oracle _ 1 (h 1) (by decide)]
  rw [requestWithRetry_fail_last oracle _ (h 2)]

/-- Counterexample for C3: with the transport failing on every attempt,
the retry loop makes three attempts (not one) and surfaces the
JSON-format exhaustion error — a transport failure is not surfaced
immediately and is retried like a malformed output. -/
theorem c3_counterexample :
    (requestWithRetry (fun _ => .transportError) [] 0).2.1 = 3 ∧
    ¬((requestWithRetry (fun _ => .transportError) [] 0).2.1 = 1) ∧
    (requestWithRetry (fun _ => .transportError) [] 0).1 =
      .error exhaustedMsg := by
  have h := requestWithRetry_allFail (fun _ => .transportError) []
    (fun i => Or.inl rfl)
  rw [h]
  refine ⟨rfl, by decide, rfl⟩

/-- C3 amended: a transport failure at the AI boundary enters the same
bounded retry protocol as a malformed output — the conversation is
re-issued with the corrective instruction appended, three attempts in
total, and exhaustion surfaces the terminal error; only cancellation
short-circuits the loop (resolving to an empty result), and a success
resolves at once. -/
theorem c3_transport_retry_amended :
    (∀ (oracle : Nat → AttemptOutcome) (messages : List ChatMessage),
      (∀ i, oracle i = .transportError) →
      requestWithRetry oracle messages 0 =
        (.error exhaustedMsg, 3,
          messages ++ [correctiveMessage] ++ [correctiveMessage])) ∧
    (∀ (oracle : Nat → AttemptOutcome) (messages : List ChatMessage),
      (∀ i, oracle i = .malformedOutput) →
      requestWithRetry oracle messages 0 =
        (.error exhaustedMsg, 3,
          messages ++ [correctiveMessage] ++ [correctiveMessage])) ∧
    (∀ (oracle : Nat → AttemptOutcome) (messages : List ChatMessage)
        (attempt : Nat),
      oracle attempt = .cancelled →
      requestWithRetry oracle messages attempt = (.ok [], 1, messages)) ∧
    (∀ (oracle : Nat → AttemptOutcome) (messages : List ChatMessage)
        (segs : List TextSegment) (attempt : Nat),
      oracle attempt = .success segs →
      requestWithRetry oracle messages attempt = (.ok segs, 1, messages)) := by
  refine ⟨?_, ?_, ?_, ?_⟩
  · intro oracle messages h
    exact requestWithRetry_allFail oracle messages (fun i => Or.inl (h i))
  · intro oracle messages h
    exact requestWithRetry_allFail oracle messages (fun i => Or.inr (h i))
  · intro oracle messages attempt h
    rw [requestWithRetry, h]
  · intro oracle messages segs attempt h
    rw [requestWithRetry, h]

/-- Witness for the amended C3 at the concrete always-failing transport
oracle: three attempts, two corrective messages appended, terminal
error surfaced; and a first-attempt cancellation resolves to the empty
list at once. -/
theorem c3_transport_retry_amended_witness :
    requestWithRetry (fun _ => .transportError) [] 0 =
      (.error exhaustedMsg, 3, [correctiveMessage, correctiveMessage]) ∧
    requestWithRetry (fun _ => .cancelled) [] 0 = (.ok [], 1, []) :=
  ⟨by
    have h := c3_transport_retry_amended.1 (fun _ => .transportError) []
      (fun i => rfl)
    simpa using h,
    c3_transport_retry_amended.2.2.1 (fun _ => .cancelled) [] 0 rfl⟩

/-- Cache parameters that executeWithCache passes to the store. -/
structure CacheParams where
  query : Str
  parentId : Option Str
  sourceSegmentId : Option Str
deriving Repr, DecidableEq

/-- State of the AIService request layer: the pending-request map
(cache key to in-flight request identity), the persistent store
history, the log of issued network requests, and a fresh request
counter. -/
structure SvcState where
  pendingRequests : List (Str × Nat)
  history : List QueryHistoryItem
  networkCalls : List Nat
  nextReq : Nat
deriving Repr, DecidableEq

/-- What a caller of executeWithCache observes at call time: a
synchronous store hit, an await of an already in-flight identical
request, or a freshly issued network request. -/
inductive StartOutcome where
  | cacheHit : List TextSegment → StartOutcome
  | awaitPending : Nat → StartOutcome
  | issued : Nat → StartOutcome
deriving Repr, DecidableEq

/-- Lookup in the pending-request map. -/
def pendingLookup (m : List (Str × Nat)) (key : Str) : Option Nat :=
  (m.find? (fun kv => kv.1 == key)).map (fun kv => kv.2)

/-- Model of the synchronous prefix of AIService.executeWithCache: the
persistent store is consulted first, then the pending-request map; only
when both miss is a new network request issued and recorded in the
pending map under the cache key. -/
def executeWithCacheStart (cacheKey : Str) (cp : CacheParams) (w : SvcState) :
    SvcState × StartOutcome :=
  match findExistingQuery cp.query cp.sourceSegmentId cp.parentId w.history with
  | some existing => (w, .cacheHit existing.segments)
  | none =>
    match pendingLookup w.pendingRequests cacheKey with
    | some rid => (w, .awaitPending rid)
    | none =>
      ({ w with
          pendingRequests := (cacheKey, w.nextReq) :: w.pendingRequests,
          networkCalls := w.networkCalls ++ [w.nextReq],
          nextReq := w.nextReq + 1 }, .issued w.nextReq)

/-- Model of the resolution of a successful request in
AIService.executeRequest: the result is saved to the store and the
pending entry is removed. -/
def resolveSuccess (cacheKey : Str) (cp : CacheParams)
    (segs : List TextSegment) (freshId : Str) (ts : Nat) (w : SvcState) :
    SvcState :=
  { w with
      history := (saveQueryResult cp.query segs cp.parentId
        cp.sourceSegmentId freshId ts w.history).2,
      pendingRequests :=
        w.pendingRequests.filter (fun kv => !(kv.1 == cacheKey)) }

/-- Segment sequence a caller finally receives, given the resolution
of each network request identity. -/
def callerValue (o : StartOutcome) (resolved : Nat → List TextSegment) :
    List TextSegment :=
  match o with
  | .cacheHit segs => segs
  | .awaitPending r => resolved r
  | .issued r => resolved r

/-- Model of AIService.createExpansionCacheKey: title, content and
original query joined by colons. -/
def createExpansionCacheKey (segment : TextSegment) (originalQuery : Str) :
    Str :=
  segment.title ++ str ":" ++ segment.content ++ str ":" ++ originalQuery

/-- Model of AIService.createSearchCacheKey. -/
def createSearchCacheKey (query : Str) : Str := lowerTrim query

/-- JavaScript expression segment.parentId or-else undefined: a null or
empty parent link is passed as undefined. -/
def jsOrUndefined (o : Option Str) : Option Str :=
  match o with
  | some s => if s.isEmpty then none else some s
  | none => none

/-- Cache parameters of AIService.expandSegment: the derived cache key
is used as the stored query text, the parent link is passed through
or-else-undefined, and the expanded segment id is the source. -/
def expandCacheParams (segment : TextSegment) (originalQuery : Str) :
    CacheParams :=
  { query := createExpansionCacheKey segment originalQuery,
    parentId := jsOrUndefined segment.parentId,
    sourceSegmentId := some segment.id }

/-- Model of the synchronous prefix of AIService.expandSegment. -/
def expandSegmentStart (segment : TextSegment) (originalQuery : Str)
    (w : SvcState) : SvcState × StartOutcome :=
  executeWithCacheStart (createExpansionCacheKey segment originalQuery)
    (expandCacheParams segment originalQuery) w

/-- C9: two expansion requests for the same segment and the same
original query, the second starting while the first is still pending,
produce exactly one network call — the first caller issues it, the
second caller awaits the identical in-flight request — and for any
resolution of that one request both callers receive the same segment
sequence. -/
theorem c9_dedup :
    ∀ (segment : TextSegment) (originalQuery : Str) (w : SvcState),
      findExistingQuery (expandCacheParams segment originalQuery).query
          (expandCacheParams segment originalQuery).sourceSegmentId
          (expandCacheParams segment originalQuery).parentId w.history = none →
      pendingLookup w.pendingRequests
          (createExpansionCacheKey segment originalQuery) = none →
      (expandSegmentStart segment originalQuery w).2 = .issued w.nextReq ∧
      (expandSegmentStart segment originalQuery
          (expandSegmentStart segment originalQuery w).1).2 =
        .awaitPending w.nextReq ∧
      (expandSegmentStart segment originalQuery w).1.networkCalls =
        w.networkCalls ++ [w.nextReq] ∧
      (expandSegmentStart segment originalQuery
          (expandSegmentStart segment originalQuery w).1).1.networkCalls =
        w.networkCalls ++ [w.nextReq] ∧
      (∀ resolved : Nat → List TextSegment,
        callerValue (expandSegmentStart segment originalQuery w).2 resolved =
          callerValue (expandSegmentStart segment originalQuery
            (expandSegmentStart segment originalQuery w).1).2 resolved) := by
  intro segment originalQuery w hfind hpend
  have h1 : expandSegmentStart segment originalQuery w =
      ({ w with
          pendingRequests := (createExpansionCacheKey segment originalQuery,
            w.nextReq) :: w.pendingRequests,
          networkCalls := w.networkCalls ++ [w.nextReq],
          nextReq := w.nextReq + 1 }, .issued w.nextReq) := by
    simp only [expandSegmentStart, executeWithCacheStart, hfind, hpend]
  have h2 : expandSegmentStart segment originalQuery
      (expandSegmentStart segment originalQuery w).1 =
      ((expandSegmentStart segment originalQuery w).1,
        .awaitPending w.nextReq) := by
    rw [h1]
    simp only [expandSegmentStart, executeWithCacheStart]
    rw [show findExistingQuery (expandCacheParams segment originalQuery).query
        (expandCacheParams segment originalQuery).sourceSegmentId
        (expandCacheParams segment originalQuery).parentId w.history = none
      from hfind]
    simp [pendingLookup, List.find?]
  refine ⟨by rw [h1], by rw [h2, h1], by rw [h1], by rw [h2, h1], ?_⟩
  intro resolved
  rw [h2, h1]
  rfl

/-- Witness for C9 at concrete inputs: from an empty service state, two
identical expansion starts issue exactly one network call (request
zero), the second awaits it, and both callers receive the same
resolution. -/
theorem c9_dedup_witness :
    (expandSegmentStart ⟨str "segment_1", str "Light reactions",
        str "c", 0, none⟩ (str "photosynthesis") ⟨[], [], [], 0⟩).2 =
      .issued 0 ∧
    (expandSegmentStart ⟨str "segment_1", str "Light reactions",
        str "c", 0, none⟩ (str "photosynthesis")
        (expandSegmentStart ⟨str "segment_1", str "Light reactions",
          str "c", 0, none⟩ (str "photosynthesis") ⟨[], [], [], 0⟩).1).2 =
      .awaitPending 0 ∧
    (expandSegmentStart ⟨str "segment_1", str "Light reactions",
        str "c", 0, none⟩ (str "photosynthesis")
        (expandSegmentStart ⟨str "segment_1", str "Light reactions",
          str "c", 0, none⟩ (str "photosynthesis")
          ⟨[], [], [], 0⟩).1).1.networkCalls = [0] ∧
    callerValue (expandSegmentStart ⟨str "segment_1", str "Light reactions",
        str "c", 0, none⟩ (str "photosynthesis") ⟨[], [], [], 0⟩).2
        (fun _ => [⟨str "segment_2", str "t", str "c", 1,
          some (str "segment_1")⟩]) =
      callerValue (expandSegmentStart ⟨str "segment_1", str "Light reactions",
          str "c", 0, none⟩ (str "photosynthesis")
          (expandSegmentStart ⟨str "segment_1", str "Light reactions",
            str "c", 0, none⟩ (str "photosynthesis") ⟨[], [], [], 0⟩).1).2
        (fun _ => [⟨str "segment_2", str "t", str "c", 1,
          some (str "segment_1")⟩]) := by
  have h := c9_dedup ⟨str "segment_1", str "Light reactions", str "c", 0, none⟩
    (str "photosynthesis") ⟨[], [], [], 0⟩ rfl rfl
  exact ⟨h.1, h.2.1, h.2.2.2.1, h.2.2.2.2 _⟩

/-- C10: for a root-level segment (null parentId) the expansion lookup
passes parentId as undefined and its source id as sourceSegmentId, so
it can only return records with neither sourceSegmentId nor parentId
set; the completion save writes a record with sourceSegmentId set to
the segment id; consequently, when the store holds no record that
query-matches the derived cache key with both fields unset, the start
is never a cache hit — it issues a new network request unless an
identical request is already in the pending map, which it then awaits —
and the record saved on completion never becomes such a spurious match,
so repetitions keep missing the store. -/
theorem c10_rootExpansion_noCacheHit :
    ∀ (segment : TextSegment) (originalQuery : Str) (w : SvcState),
      segment.parentId = none →
      ((expandCacheParams segment originalQuery).parentId = none ∧
        (expandCacheParams segment originalQuery).sourceSegmentId =
          some segment.id) ∧
      (∀ item,
        findExistingQuery (expandCacheParams segment originalQuery).query
            (some segment.id) none w.history = some item →
        strTruthy item.sourceSegmentId = false ∧
          strTruthy item.parentId = false) ∧
      (∀ (segs : List TextSegment) (freshId : Str) (ts : Nat),
        ((saveQueryResult (expandCacheParams segment originalQuery).query segs
            (expandCacheParams segment originalQuery).parentId
            (expandCacheParams segment originalQuery).sourceSegmentId
            freshId ts w.history).2).head? =
          some ⟨freshId, (expandCacheParams segment originalQuery).query,
            segs, ts, none, some segment.id⟩) ∧
      ((∀ item ∈ w.history,
          findExistingPred (expandCacheParams segment originalQuery).query
            (some segment.id) none item = false) →
        (pendingLookup w.pendingRequests
            (createExpansionCacheKey segment originalQuery) = none →
          (expandSegmentStart segment originalQuery w).2 = .issued w.nextReq ∧
          (expandSegmentStart segment originalQuery w).1.networkCalls =
            w.networkCalls ++ [w.nextReq]) ∧
        (∀ rid, pendingLookup w.pendingRequests
            (createExpansionCacheKey segment originalQuery) = some rid →
          (expandSegmentStart segment originalQuery w).2 =
            .awaitPending rid)) ∧
      (segment.id ≠ [] → ∀ (segs : List TextSegment) (freshId : Str) (ts : Nat),
        findExistingPred (expandCacheParams segment originalQuery).query
          (some segment.id) none
          ⟨freshId, (expandCacheParams segment originalQuery).query, segs, ts,
            none, some segment.id⟩ = false) := by
  intro segment originalQuery w hroot
  have hcp : (expandCacheParams segment originalQuery).parentId = none := by
    simp [expandCacheParams, jsOrUndefined, hroot]
  have hsrc : (expandCacheParams segment originalQuery).sourceSegmentId =
      some segment.id := rfl
  refine ⟨⟨hcp, hsrc⟩, ?_, ?_, ?_, ?_⟩
  · intro item hf
    exact findExistingQuery_not_both
      (by simp [strTruthy]) hf
  · intro segs freshId ts
    rw [hcp, hsrc]
    exact saveQueryResult_head _ segs none (some segment.id) freshId ts
      w.history
  · intro hinv
    have hfind : findExistingQuery
        (expandCacheParams segment originalQuery).query
        (expandCacheParams segment originalQuery).sourceSegmentId
        (expandCacheParams segment originalQuery).parentId w.history = none := by
      rw [hcp, hsrc]
      rw [findExistingQuery, List.find?_eq_none]
      intro x hx
      rw [hinv x hx]
      simp
    constructor
    · intro hpend
      constructor
      · simp only [expandSegmentStart, executeWithCacheStart, hfind, hpend]
      · simp only [expandSegmentStart, executeWithCacheStart, hfind, hpend]
    · intro rid hpend
      simp only [expandSegmentStart, executeWithCacheStart, hfind, hpend]
  · intro hid segs freshId ts
    unfold findExistingPred
    have h1 : strTruthy (none : Option Str) = false := rfl
    rw [h1]
    simp only [Bool.and_false, Bool.false_eq_true, if_false]
    have h2 : strTruthy (some segment.id) = true := by
      simp [strTruthy, List.isEmpty_eq_true, hid]
    simp [h2]

/-- Witness for C10 at a concrete root-level segment and empty service
state: the lookup passes no parentId, the start issues request zero
rather than hitting the store, and the record a completed expansion
would save never matches the root-branch predicate of the lookup. -/
theorem c10_rootExpansion_noCacheHit_witness :
    (expandCacheParams ⟨str "segment_1", str "T", str "C", 0, none⟩
        (str "orig")).parentId = none ∧
    (expandSegmentStart ⟨str "segment_1", str "T", str "C", 0, none⟩
        (str "orig") ⟨[], [], [], 0⟩).2 = .issued 0 ∧
    findExistingPred (expandCacheParams ⟨str "segment_1", str "T", str "C",
        0, none⟩ (str "orig")).query (some (str "segment_1")) none
      ⟨str "r", (expandCacheParams ⟨str "segment_1", str "T", str "C",
        0, none⟩ (str "orig")).query, [], 0, none, some (str "segment_1")⟩ =
      false := by
  have h := c10_rootExpansion_noCacheHit
    ⟨str "segment_1", str "T", str "C", 0, none⟩ (str "orig") ⟨[], [], [], 0⟩
    rfl
  refine ⟨h.1.1, ?_, ?_⟩
  · exact ((h.2.2.2.1 (by intro item hi; simp at hi)).1 rfl).1
  · exact h.2.2.2.2 (by decide) [] (str "r") 0

/-- Navigation and UI state owned by the orchestrator (the atoms of
src/store/atoms.ts used by performQueryAtom). -/
structure OrchState where
  searchQuery : Str
  segments : List TextSegment
  isSearching : Bool
  error : Option Str
  searchController : Option Nat
  expandingSegmentId : Option Str
  currentSearchId : Option Str
deriving Repr, DecidableEq

/-- State of the SearchController singleton (searchController.ts):
the current abort controller (by identity), the in-flight flag and the
bounded query history. -/
structure CtrlState where
  currentRequest : Option Nat
  isSearching : Bool
  searchHistory : List Str
deriving Repr, DecidableEq

/-- Identity of a performQuery continuation suspended at its network
await: the arguments of the orchestrator-level save, the arguments of
the service-level save, and the abort controller guarding the fetch. -/
structure PendingReq where
  query : Str
  sourceSegmentId : Option Str
  parentId : Option Str
  svcQuery : Str
  svcParentId : Option Str
  svcSourceSegmentId : Option Str
  ctrlId : Nat
deriving Repr, DecidableEq

/-- Whole-system state of the orchestrator model: atom state, the
controller singleton, the set of abort controllers already aborted, the
persistent store, a fresh controller counter and the suspended
continuations. -/
structure World where
  orch : OrchState
  ctrl : CtrlState
  aborted : List Nat
  history : List QueryHistoryItem
  nextCtrlId : Nat
  pending : List PendingReq
deriving Repr, DecidableEq

/-- Model of SearchControllerImpl.cancelSearch: abort and drop the
current request when one is active. -/
def ctrlCancelSearch (w : World) : World :=
  match w.ctrl.currentRequest with
  | some c => { w with
      aborted := c :: w.aborted,
      ctrl := { w.ctrl with
                currentRequest := none,
                isSearching := false } }
  | none => w

/-- Bounded search-history push of SearchControllerImpl.startSearch. -/
def pushHistory (h : List Str) (q : Str) : List Str :=
  if h.contains q then h
  else
    if (h ++ [q]).length > 10 then (h ++ [q]).drop ((h ++ [q]).length - 10)
    else h ++ [q]

/-- Model of SearchControllerImpl.startSearch: any existing request is
cancelled (aborted), a fresh abort controller becomes current, and the
query is recorded. Returns the fresh controller identity. -/
def ctrlStartSearch (q : Str) (w : World) : World × Nat :=
  let w1 := ctrlCancelSearch w
  ({ w1 with
      ctrl := { currentRequest := some w1.nextCtrlId,
                isSearching := true,
                searchHistory := pushHistory w1.ctrl.searchHistory q },
      nextCtrlId := w1.nextCtrlId + 1 }, w1.nextCtrlId)

/-- Model of SearchControllerImpl.completeSearch. -/
def ctrlCompleteSearch (w : World) : World :=
  { w with ctrl := { w.ctrl with
                      currentRequest := none,
                      isSearching := false } }

/-- Synchronous outcome of a performQuery intent. -/
inductive QueryStart where
  | cacheHit : List TextSegment → Str → QueryStart
  | started : Nat → QueryStart
deriving Repr, DecidableEq

/-- Model of the synchronous prefix of performQueryAtom (searchActions):
a store hit is adopted at once with all flags cleared; otherwise the
query text is set, the error cleared, a fresh abort controller started
(cancelling any previous request), the loading flags set — and for a
root query the segment list is reset — before the request suspends. -/
def performQueryStart (query : Str) (sourceSegment : Option TextSegment)
    (parentId : Option Str) (w : World) : World × QueryStart :=
  match findExistingQuery query (sourceSegment.map (fun s => s.id)) parentId
      w.history with
  | some existing =>
    ({ w with orch := { w.orch with
                          searchQuery := existing.query,
                          segments := existing.segments,
                          currentSearchId := some existing.id,
                          isSearching := false,
                          error := none,
                          expandingSegmentId := none } },
      .cacheHit existing.segments existing.id)
  | none =>
    let w1 := { w with orch := { w.orch with
                                  searchQuery := query,
                                  error := none } }
    match sourceSegment with
    | some s =>
      let p := ctrlStartSearch query w1
      ({ p.1 with
          orch := { p.1.orch with
                    expandingSegmentId := some s.id,
                    isSearching := true,
                    searchController := some p.2 },
          pending := p.1.pending ++ [⟨query, some s.id, parentId,
            createExpansionCacheKey s query, jsOrUndefined s.parentId,
            some s.id, p.2⟩] }, .started p.2)
    | none =>
      let p := ctrlStartSearch query w1
      ({ p.1 with
          orch := { p.1.orch with
                    isSearching := true,
                    searchController := some p.2,
                    segments := [] },
          pending := p.1.pending ++ [⟨query, none, parentId, query, none,
            none, p.2⟩] }, .started p.2)

/-- Resolution of a network request: parsed segments or a thrown
failure message. -/
inductive NetOutcome where
  | success : List TextSegment → NetOutcome
  | failure : Str → NetOutcome
deriving Repr, DecidableEq

/-- Model of the resumption of a suspended performQuery continuation.
When the guarding abort controller was aborted, the request chain
resolves to the empty list (requestWithRetry turns the abort into an
empty success); the service layer then saves the result to the store
(executeRequest), the orchestrator saves it again, adopts the segments
and the fresh record id as current state, clears the loading flags and
completes the controller. A failure clears the flags, sets the error
message and leaves segments and current record id untouched. The model
commits the resolution unconditionally, exactly as the source does:
performQueryAtom compares no request identity before writing state. -/
def deliverResolution (req : PendingReq) (net : NetOutcome)
    (svcId perfId : Str) (ts : Nat) (w : World) : World :=
  let effective := if w.aborted.contains req.ctrlId then NetOutcome.success []
    else net
  let w0 := { w with pending := w.pending.filter (fun r => !(r == req)) }
  match effective with
  | .success segs =>
    let h1 := (saveQueryResult req.svcQuery segs req.svcParentId
      req.svcSourceSegmentId svcId ts w0.history).2
    let saved := saveQueryResult req.query segs req.parentId
      req.sourceSegmentId perfId ts h1
    ctrlCompleteSearch { w0 with
      history := saved.2,
      orch := { w0.orch with
                segments := segs,
                currentSearchId := some saved.1,
                isSearching := false,
                searchController := none,
                expandingSegmentId := none } }
  | .failure msg =>
    ctrlCompleteSearch { w0 with
      orch := { w0.orch with
                isSearching := false,
                error := some msg,
                searchController := none,
                expandingSegmentId := none } }

/-- Model of cancelSearchAtom: abort the in-flight request, clear the
loading flags and any error, return to the idle state. The segment
list atom is not touched here. -/
def cancelSearchAction (w : World) : World :=
  let w1 := ctrlCancelSearch w
  { w1 with orch := { w1.orch with
                      isSearching := false,
                      error := none,
                      searchController := none,
                      expandingSegmentId := none } }

/-- Initial world of the supersession trace: idle orchestrator, empty
store, no pending request. -/
def c1World0 : World :=
  ⟨⟨[], [], false, none, none, none, none⟩, ⟨none, false, []⟩, [], [], 0, []⟩

/-- World after request R1 (root search q1) starts. -/
def c1World1 : World := (performQueryStart (str "q1") none none c1World0).1

/-- World after request R2 (root search q2) starts while R1 is pending. -/
def c1World2 : World := (performQueryStart (str "q2") none none c1World1).1

/-- Continuation identity of R1. -/
def c1Req1 : PendingReq := ⟨str "q1", none, none, str "q1", none, none, 0⟩

/-- World after the late resolution of R1 arrives (it was aborted by
the start of R2, so it resolves to the empty list) and is committed. -/
def c1World3 : World :=
  deliverResolution c1Req1
    (.success [⟨str "segment_A", str "A", str "a", 0, none⟩])
    (str "svc-1") (str "perf-1") 5 c1World2

/-- C1: the claim states that once R2 has started, the resolution of
the superseded R1 never becomes the orchestrator current state. The
code violates this: performQueryAtom commits whatever its awaited
request resolves to without comparing request identities, so on the
concrete trace R1-starts, R2-starts (aborting R1), R1-resolves, the
aborted R1 resolution (an empty segment list and a fresh record id for
query q1) becomes the current state — segments are emptied, the current
record id points at the R1 record, and the in-flight flag is cleared —
while R2 is still pending. -/
theorem c1_supersessionViolated :
    c1World2.orch.searchController = some 1 ∧
    c1Req1 ∈ c1World2.pending ∧
    c1World3.orch.currentSearchId = some (str "perf-1") ∧
    c1World3.orch.segments = [] ∧
    c1World3.orch.isSearching = false ∧
    (getQueryById (str "perf-1") c1World3.history).map (fun r => r.query) =
      some (str "q1") ∧
    (⟨str "q2", none, none, str "q2", none, none, 1⟩ : PendingReq) ∈
      c1World3.pending := by
  decide

/-- Initial world of the cancellation trace: a previous result (one
segment, record id old_id) is on display, the store is empty, nothing
is in flight. -/
def c2World0 : World :=
  ⟨⟨str "old", [⟨str "old_seg", str "Old", str "c", 0, none⟩], false, none,
    none, none, some (str "old_id")⟩, ⟨none, false, []⟩, [], [], 0, []⟩

/-- World after a root search for photosynthesis starts. -/
def c2World1 : World :=
  (performQueryStart (str "photosynthesis") none none c2World0).1

/-- World after the user cancels mid-search. -/
def c2World2 : World := cancelSearchAction c2World1

/-- Continuation identity of the cancelled search. -/
def c2Req : PendingReq :=
  ⟨str "photosynthesis", none, none, str "photosynthesis", none, none, 0⟩

/-- World after the cancelled request resolves (to the empty list) and
its resolution is committed. -/
def c2World3 : World :=
  deliverResolution c2Req
    (.success [⟨str "segment_B", str "B", str "b", 0, none⟩])
    (str "svc-2") (str "perf-2") 9 c2World2

/-- Counterexample for C2: cancelling a mid-flight root search does
return the orchestrator to the idle state with no error, but the
segment list is not the one from before the search began — the root
search cleared it at start, and the cancelled request commits its empty
resolution — so the previously displayed segment is gone. -/
theorem c2_counterexample :
    c2World0.orch.segments = [⟨str "old_seg", str "Old", str "c", 0, none⟩] ∧
    c2World3.orch.isSearching = false ∧
    c2World3.orch.error = none ∧
    ¬(c2World3.orch.segments = c2World0.orch.segments) := by
  decide

/-- C2 amended: when the user cancels an in-flight root search (started
from a state with no other request in flight and no store hit for the
query), the orchestrator returns to idle with no error set, and the
cancelled request resolves to an empty result that is never surfaced as
a failure; the segment list however ends empty — it was cleared when
the root search began and the empty cancellation result is committed —
rather than being restored to its pre-search contents. -/
theorem c2_cancel_amended :
    ∀ (w : World) (q : Str) (net : NetOutcome) (svcId perfId : Str) (ts : Nat),
      findExistingQuery q none none w.history = none →
      w.ctrl.currentRequest = none →
      (performQueryStart q none none w).1.pending =
        w.pending ++ [⟨q, none, none, q, none, none, w.nextCtrlId⟩] ∧
      (performQueryStart q none none w).1.orch.segments = [] ∧
      (deliverResolution ⟨q, none, none, q, none, none, w.nextCtrlId⟩ net
          svcId perfId ts
          (cancelSearchAction (performQueryStart q none none w).1)).orch.isSearching
        = false ∧
      (deliverResolution ⟨q, none, none, q, none, none, w.nextCtrlId⟩ net
          svcId perfId ts
          (cancelSearchAction (performQueryStart q none none w).1)).orch.error
        = none ∧
      (deliverResolution ⟨q, none, none, q, none, none, w.nextCtrlId⟩ net
          svcId perfId ts
          (cancelSearchAction (performQueryStart q none none w).1)).orch.segments
        = [] ∧
      (deliverResolution ⟨q, none, none, q, none, none, w.nextCtrlId⟩ net
          svcId perfId ts
          (cancelSearchAction (performQueryStart q none none w).1)).orch.currentSearchId
        = some perfId ∧
      (deliverResolution ⟨q, none, none, q, none, none, w.nextCtrlId⟩ net
          svcId perfId ts
          (cancelSearchAction (performQueryStart q none none w).1)).ctrl.currentRequest
        = none := by
  intro w q net svcId perfId ts hfind hcr
  have hw1 : (performQueryStart q none none w).1 = { w with
      orch := { w.orch with
                searchQuery := q,
                error := none,
                isSearching := true,
                searchController := some w.nextCtrlId,
                segments := [] },
      ctrl := { currentRequest := some w.nextCtrlId,
                isSearching := true,
                searchHistory := pushHistory w.ctrl.searchHistory q },
      nextCtrlId := w.nextCtrlId + 1,
      pending := w.pending ++ [⟨q, none, none, q, none, none,
        w.nextCtrlId⟩] } := by
    simp only [performQueryStart, Option.map_none', hfind, ctrlStartSearch,
      ctrlCancelSearch, hcr]
  have hw2 : cancelSearchAction (performQueryStart q none none w).1 =
      { w with
        orch := { w.orch with
                  searchQuery := q,
                  error := none,
                  isSearching := false,
                  searchController := none,
                  expandingSegmentId := none,
                  segments := [] },
        ctrl := { currentRequest := none,
                  isSearching := false,
                  searchHistory := pushHistory w.ctrl.searchHistory q },
        aborted := w.nextCtrlId :: w.aborted,
        nextCtrlId := w.nextCtrlId + 1,
        pending := w.pending ++ [⟨q, none, none, q, none, none,
          w.nextCtrlId⟩] } := by
    rw [hw1]
    simp only [cancelSearchAction, ctrlCancelSearch]
  have hab : ((cancelSearchAction (performQueryStart q none none w).1).aborted).contains
      w.nextCtrlId = true := by
    rw [hw2]
    simp
  have hc : (w.nextCtrlId :: w.aborted).contains w.nextCtrlId = true := by
    simp
  refine ⟨by rw [hw1], by rw [hw1], ?_, ?_, ?_, ?_, ?_⟩ <;>
    · rw [hw2]
      simp only [deliverResolution]
      simp [hc, ctrlCompleteSearch, saveQueryResult]

/-- Witness for the amended C2 on the concrete cancellation trace: the
final state is idle, error-free, with an empty segment list and the
record id of the empty cancellation result. -/
theorem c2_cancel_amended_witness :
    c2World3.orch.isSearching = false ∧
    c2World3.orch.error = none ∧
    c2World3.orch.segments = [] ∧
    c2World3.orch.currentSearchId = some (str "perf-2") ∧
    c2World3.ctrl.currentRequest = none := by
  have h := c2_cancel_amended c2World0 (str "photosynthesis")
    (.success [⟨str "segment_B", str "B", str "b", 0, none⟩])
    (str "svc-2") (str "perf-2") 9 rfl rfl
  exact ⟨h.2.2.1, h.2.2.2.1, h.2.2.2.2.1, h.2.2.2.2.2.1, h.2.2.2.2.2.2⟩
